import Mathlib

/-!
Verification of the drand-rs client library against its specification.

This file gives a shallow embedding of the library's core pipeline:
the value types of `core.rs`, the latency bookkeeping and the
`boot_phase1` / `boot_phase2` / `get` / `verify` operations of `http.rs`,
the pool operations `boot` / `get` / `get_endpoint_pair` of
`endpoints.rs`, and the chain verifier `verify_chain` of `verify.rs`.

Conventions of the embedding:
* machine integers (`u128`, `u64`, `usize`) become `Nat`, with `% 2 ^ w`
  written out where the source truncates;
* byte strings (`Vec<u8>`, `&[u8]`) become `List Nat`;
* `std::time::Duration` becomes a `Nat` counting nanoseconds
  (a `Duration` is a `u64` of seconds plus a sub-second nanosecond part,
  so every `Duration` is an exact number of nanoseconds; `Duration`
  division by an integer is modelled exactly as in the Rust standard
  library, see `durDiv`);
* fallible code returns `Except`/`Out`, where `Out` also has a
  constructor for a panic and one for a loop that has not returned
  within the provided fuel;
* the network is an oracle argument: a function from requests to
  responses (transport result, elapsed wall time, parsed payload);
* the BLS12-381 primitives (`g1_from_fixed`, `verify` of the external
  `drand_verify` crate) are abstract function arguments.
-/

namespace Drand

/-- Error kinds of `core.rs::Error`.  The location-prefix and message
strings carried by the Rust enum do not decide any claim and are
dropped; only the kind is kept. -/
inductive ErrKind where
  | Fatal
  | PoisonedLock
  | NotSecure
  | Invalid
  | IOError
  | JsonParse
  | StringParse
  | HexParse
deriving DecidableEq, Repr

/-- Outcome of a Rust computation: a normal return, an `Error` of some
kind, a panic (unwinding), or a loop that has not returned within the
fuel supplied to the model. -/
inductive Out (α : Type) where
  | ok (a : α)
  | err (k : ErrKind)
  | panicked
  | spin
deriving DecidableEq, Repr

/-- `core.rs::Random`: one beacon round (`round: u128`, byte vectors for
the other three fields). -/
structure Random where
  round : Nat
  randomness : List Nat
  signature : List Nat
  previous_signature : List Nat
deriving DecidableEq, Repr

/-- `core.rs::Info`: group parameters from the `/info` endpoint.
`period` and `genesis_time` are kept in seconds, as in the JSON. -/
structure Info where
  public_key : List Nat
  period : Nat
  genesis_time : Nat
  hash : List Nat
  group_hash : List Nat
deriving DecidableEq, Repr

/-- `endpoints.rs::State` as used by `http.rs` (`info`, `check_point`,
the two policy booleans, and the connection bound). -/
structure State where
  info : Info
  check_point : Option Random
  determinism : Bool
  secure : Bool
  max_conns : Nat
deriving DecidableEq, Repr

/-! ## Latency bookkeeping (`http.rs` lines 11-13, 61-92) -/

def NANOS_PER_SEC : Nat := 1000000000

/-- `http.rs::MAX_ELAPSED_WINDOW`. -/
def MAX_ELAPSED_WINDOW : Nat := 32

/-- `http.rs::MAX_ELAPSED = Duration::from_secs(3600 * 24)`, in
nanoseconds. -/
def MAX_ELAPSED : Nat := 3600 * 24 * NANOS_PER_SEC

/-- `u64::MAX`. -/
def U64_MAX : Nat := 2 ^ 64 - 1

/-- Rust `Duration / u32` (`Duration::checked_div`): the duration is
split into whole seconds `secs` and the nanosecond remainder `nanos`,
and the quotient is `Duration::new(secs / r, nanos / r + ((secs % r) *
NANOS_PER_SEC + nanos % r) / r)`, expressed here on the total
nanosecond count. -/
def durDiv (d r : Nat) : Nat :=
  let secs := d / NANOS_PER_SEC
  let nanos := d % NANOS_PER_SEC
  (secs / r) * NANOS_PER_SEC + (nanos / r + ((secs % r) * NANOS_PER_SEC + nanos % r) / r)

/-- `Http::to_elapsed`: `Duration::from_secs(u64::MAX)` for the empty
window, else the sum of the window divided by its length. -/
def to_elapsed (es : List Nat) : Nat :=
  match es.length with
  | 0 => U64_MAX * NANOS_PER_SEC
  | n => durDiv es.sum n

/-- `Http::add_elapsed`: when the window already holds
`MAX_ELAPSED_WINDOW` samples, `es.remove(0)` evicts the front entry;
then the new sample is pushed at the back. -/
def add_elapsed (es : List Nat) (elapsed : Nat) : List Nat :=
  (if MAX_ELAPSED_WINDOW ≤ es.length then es.drop 1 else es) ++ [elapsed]

/-! ## Hex decoding and the JSON conversions (`http.rs` lines 285-334) -/

/-- One hex digit, as accepted by the `hex` crate (both cases). -/
def hexDigit (c : Char) : Option Nat :=
  if '0' ≤ c ∧ c ≤ '9' then some (c.toNat - '0'.toNat)
  else if 'a' ≤ c ∧ c ≤ 'f' then some (c.toNat - 'a'.toNat + 10)
  else if 'A' ≤ c ∧ c ≤ 'F' then some (c.toNat - 'A'.toNat + 10)
  else none

/-- `hex::decode` on a character list: consumes two hex digits per
output byte, failing on an odd-length input or a non-hex character. -/
def hexDecodeChars : List Char → Option (List Nat)
  | [] => some []
  | [_] => none
  | a :: b :: rest =>
    match hexDigit a, hexDigit b, hexDecodeChars rest with
    | some ha, some hb, some tl => some ((ha * 16 + hb) :: tl)
    | _, _, _ => none

/-- `hex::decode`. -/
def hexDecode (s : String) : Option (List Nat) :=
  hexDecodeChars s.data

/-- `http.rs::InfoJson` (string fields are the undecoded hex). -/
structure InfoJson where
  public_key : String
  period : Nat
  genesis_time : Nat
  hash : String
  group_hash : String

/-- `http.rs::RandomJson`. -/
structure RandomJson where
  round : Nat
  randomness : String
  signature : String
  previous_signature : String

/-- `TryFrom<InfoJson> for Info` (`http.rs` lines 295-310): hex-decode
`public_key`, `hash` and `group_hash` (each failure is `HexParse`) and
carry `period`/`genesis_time` over; no length check is performed.
The struct literal's fields evaluate in written order, and the
`genesis_time` field is `time::UNIX_EPOCH + Duration::from_secs(val.genesis_time)`
(`http.rs` line 303): `SystemTime + Duration` is a `checked_add` that
PANICS on overflow, and with `UNIX_EPOCH` at zero seconds it overflows
the `i64` second count exactly when the attacker-supplied `u64` field
`genesis_time` exceeds `i64::MAX`, i.e. is `≥ 2 ^ 63`.  That panic
fires after the `public_key` decode and before the `hash` decode. -/
def infoTryFrom (v : InfoJson) : Out Info :=
  match hexDecode v.public_key with
  | none => .err .HexParse
  | some pk =>
    if 2 ^ 63 ≤ v.genesis_time then .panicked
    else
      match hexDecode v.hash with
      | none => .err .HexParse
      | some h =>
        match hexDecode v.group_hash with
        | none => .err .HexParse
        | some gh =>
          .ok { public_key := pk, period := v.period,
                genesis_time := v.genesis_time, hash := h, group_hash := gh }

/-- `TryFrom<RandomJson> for Random` (`http.rs` lines 320-334):
hex-decode `previous_signature`, `randomness` and `signature` (each
failure is `HexParse`) and carry `round` over; no other check is
performed. -/
def randomTryFrom (v : RandomJson) : Except ErrKind Random :=
  match hexDecode v.previous_signature with
  | none => .error .HexParse
  | some psign =>
    match hexDecode v.randomness with
    | none => .error .HexParse
    | some rnd =>
      match hexDecode v.signature with
      | none => .error .HexParse
      | some sig =>
        .ok { round := v.round, randomness := rnd, signature := sig,
              previous_signature := psign }

/-! ## SHA-256 (the `sha2` crate collaborator, RFC 6234) -/

def u32rotr (n x : Nat) : Nat := ((x >>> n) ||| (x <<< (32 - n))) % 2 ^ 32

def shaCh (x y z : Nat) : Nat := (x &&& y) ^^^ ((x ^^^ (2 ^ 32 - 1)) &&& z)

def shaMaj (x y z : Nat) : Nat := (x &&& y) ^^^ (x &&& z) ^^^ (y &&& z)

def sumBig0 (x : Nat) : Nat := u32rotr 2 x ^^^ u32rotr 13 x ^^^ u32rotr 22 x

def sumBig1 (x : Nat) : Nat := u32rotr 6 x ^^^ u32rotr 11 x ^^^ u32rotr 25 x

def sumSmall0 (x : Nat) : Nat := u32rotr 7 x ^^^ u32rotr 18 x ^^^ (x >>> 3)

def sumSmall1 (x : Nat) : Nat := u32rotr 17 x ^^^ u32rotr 19 x ^^^ (x >>> 10)

/-- The 64 SHA-256 round constants (fractional parts of the cube roots
of the first 64 primes), in decimal. -/
def shaK : List Nat :=
  [1116352408, 1899447441, 3049323471, 3921009573, 961987163,
   1508970993, 2453635748, 2870763221, 3624381080, 310598401,
   607225278, 1426881987, 1925078388, 2162078206, 2614888103,
   3248222580, 3835390401, 4022224774, 264347078, 604807628,
   770255983, 1249150122, 1555081692, 1996064986, 2554220882,
   2821834349, 2952996808, 3210313671, 3336571891, 3584528711,
   113926993, 338241895, 666307205, 773529912, 1294757372,
   1396182291, 1695183700, 1986661051, 2177026350, 2456956037,
   2730485921, 2820302411, 3259730800, 3345764771, 3516065817,
   3600352804, 4094571909, 275423344, 430227734, 506948616,
   659060556, 883997877, 958139571, 1322822218, 1537002063,
   1747873779, 1955562222, 2024104815, 2227730452, 2361852424,
   2428436474, 2756734187, 3204031479, 3329325298]

/-- The initial SHA-256 state (fractional parts of the square roots of
the first 8 primes), in decimal. -/
def shaH0 : List Nat :=
  [1779033703, 3144134277, 1013904242, 2773480762,
   1359893119, 2600822924, 528734635, 1541459225]

/-- Big-endian byte string of width `k` for `n` (`u128::to_be_bytes`
when `k = 16`, `u64::to_be_bytes` when `k = 8`). -/
def beBytes (k n : Nat) : List Nat :=
  (List.range k).map (fun i => (n >>> (8 * (k - 1 - i))) % 256)

def toWords (block : List Nat) : List Nat :=
  (List.range 16).map (fun i =>
    ((block.getD (4 * i) 0) <<< 24) + ((block.getD (4 * i + 1) 0) <<< 16) +
      ((block.getD (4 * i + 2) 0) <<< 8) + block.getD (4 * i + 3) 0)

def shaSchedule (w : List Nat) : List Nat :=
  (List.range 48).foldl (fun w _ =>
    w ++ [(sumSmall1 (w.getD (w.length - 2) 0) + w.getD (w.length - 7) 0 +
           sumSmall0 (w.getD (w.length - 15) 0) + w.getD (w.length - 16) 0) % 2 ^ 32]) w

def shaRound (st : List Nat) (kw : Nat × Nat) : List Nat :=
  match st with
  | [a, b, c, d, e, f, g, h] =>
    let t1 := (h + sumBig1 e + shaCh e f g + kw.1 + kw.2) % 2 ^ 32
    let t2 := (sumBig0 a + shaMaj a b c) % 2 ^ 32
    [(t1 + t2) % 2 ^ 32, a, b, c, (d + t1) % 2 ^ 32, e, f, g]
  | st => st

def shaCompress (h : List Nat) (block : List Nat) : List Nat :=
  let ws := shaSchedule (toWords block)
  let st := (shaK.zip ws).foldl shaRound h
  (h.zip st).map (fun p => (p.1 + p.2) % 2 ^ 32)

def shaPad (msg : List Nat) : List Nat :=
  msg ++ [0x80] ++ List.replicate ((64 - ((msg.length + 9) % 64)) % 64) 0 ++
    beBytes 8 (msg.length * 8)

def chunks64 : Nat → List Nat → List (List Nat)
  | 0, _ => []
  | _, [] => []
  | fuel + 1, l => l.take 64 :: chunks64 fuel (l.drop 64)

/-- SHA-256 of a byte string. -/
def sha256 (msg : List Nat) : List Nat :=
  let p := shaPad msg
  (((chunks64 p.length p).foldl shaCompress shaH0).map (beBytes 4)).flatten

/-! ## `Random::to_digest` (`core.rs` lines 149-156, identical in
`endpoints.rs` lines 297-303) -/

/-- `Random::to_digest` as the source computes it: the hasher is fed
`previous_signature` and then `self.round.to_be_bytes()`, where `round`
is a `u128`, so the appended encoding is 16 bytes wide. -/
def to_digest (r : Random) : List Nat :=
  sha256 (r.previous_signature ++ beBytes 16 r.round)

/-- The digest as the specification words it (claim C10): the 8-byte
big-endian `be64(round)` appended to `previous_signature`.  Stated for
comparison with `to_digest`. -/
def to_digest_spec (r : Random) : List Nat :=
  sha256 (r.previous_signature ++ beBytes 8 r.round)

/-! ## `verify_chain` (`verify.rs` lines 112-130)

The two BLS12-381 collaborators are abstract arguments:
`g1` models `drand_verify::g1_from_fixed` (`none` is a decode failure),
`bls` models `drand_verify::verify` (`none` is an `Err` of that crate,
`some b` is `Ok(b)`).  `G1` points are represented by `List Nat`. -/

/-- `verify_chain(pk, previous_signature, curr)`:
1. mismatching `previous_signature` fails `NotSecure`;
2. `bytes[..].clone_from_slice(&pk)` into a `[u8; 48]` panics whenever
   `pk.len() != 48`;
3. a `g1_from_fixed` failure and an `Err` from `drand_verify::verify`
   are wrapped into `NotSecure` by `err_at!`;
4. the round number is truncated with `curr.round as u64`. -/
def verify_chain (g1 : List Nat → Option (List Nat))
    (bls : List Nat → Nat → List Nat → List Nat → Option Bool)
    (pk previous_signature : List Nat) (curr : Random) : Out Bool :=
  if previous_signature ≠ curr.previous_signature then .err .NotSecure
  else if pk.length = 48 then
    match g1 pk with
    | none => .err .NotSecure
    | some pt =>
      match bls pt (curr.round % 2 ^ 64) previous_signature curr.signature with
      | none => .err .NotSecure
      | some b => .ok b
  else .panicked

/-! ## The remote endpoint as an oracle -/

/-- One response of the remote to one HTTP request: `fail` is a
transport failure (always wrapped into `IOError` by `err_at!`);
`ok elapsed val` is a transport success with the measured wall time and
the outcome of the JSON/hex decoding pipeline run on the body. -/
inductive Resp (α : Type) where
  | fail
  | ok (elapsed : Nat) (val : Except ErrKind α)

/-- The remote endpoint: its response to `GET /info` and its response to
`GET /public/latest` (argument `none`) or `GET /public/{round}`
(argument `some round`). -/
structure EpOracle where
  info : Resp Info
  round : Option Nat → Resp Random

/-! ## `Http` operations (`http.rs`) -/

/-- `Http::do_get` (`http.rs` lines 253-282): one fetch of
`/public/latest` or `/public/{round}`.  On transport success the
elapsed time is pushed onto the window (the `add_elapsed!` macro) and
then the parsed payload is returned; on transport failure the penalty
`min(to_elapsed() * 2, MAX_ELAPSED)` is pushed and the `IOError`
propagates. -/
def do_get (S : EpOracle) (win : List Nat) (round : Option Nat) :
    Except ErrKind Random × List Nat :=
  match S.round round with
  | .fail => (.error .IOError, add_elapsed win (min (to_elapsed win * 2) MAX_ELAPSED))
  | .ok elapsed val => (val, add_elapsed win elapsed)

/-- The batch of fetch results assembled by `Http::verify` for the
rounds `lo .. hi` with `hi` EXCLUDED, as in the source's
`for round in (prev.round + 1)..till_round`.  A transport failure or a
parse failure yields an `Err` item (its elapsed time is dropped; the
processing loop substitutes a penalty), a success yields the parsed
round with its elapsed time. -/
def batchItems (S : EpOracle) (lo hi : Nat) : List (Except ErrKind (Random × Nat)) :=
  (List.range' lo (hi - lo)).map (fun n =>
    match S.round (some n) with
    | .fail => .error .IOError
    | .ok _ (.error k) => .error k
    | .ok e (.ok r) => .ok (r, e))

/-- The processing loop of `Http::verify` (`http.rs` lines 225-247) over
one batch: an `Err` item pushes the penalty and sets the `err` flag; an
`Ok` item after the flag is set only records its elapsed time; an `Ok`
item before that is chain-verified against the running `prev` and
becomes the new `prev`.  Returns the final `prev` and the window (the
window is returned alongside failures as well, since it was already
updated when the failure is raised). -/
def procItems (g1 : List Nat → Option (List Nat))
    (bls : List Nat → Nat → List Nat → List Nat → Option Bool) (pk : List Nat) :
    List (Except ErrKind (Random × Nat)) → List Nat → Bool → Random →
    Out Random × List Nat
  | [], win, _, prev => (.ok prev, win)
  | item :: rest, win, errFlag, prev =>
    match item with
    | .error _ =>
      procItems g1 bls pk rest
        (add_elapsed win (min (to_elapsed win * 2) MAX_ELAPSED)) true prev
    | .ok (r, elapsed) =>
      if errFlag then procItems g1 bls pk rest (add_elapsed win elapsed) errFlag prev
      else
        let win' := add_elapsed win elapsed
        match verify_chain g1 bls pk prev.signature r with
        | .ok true => procItems g1 bls pk rest win' errFlag r
        | .ok false => (.err .NotSecure, win')
        | .err k => (.err k, win')
        | .panicked => (.panicked, win')
        | .spin => (.spin, win')

/-- Prefix a request list onto the request component of a
`verifyLoop` result. -/
def addReqs (reqs : List (Option Nat)) :
    Out Random × List Nat × List (Option Nat) → Out Random × List Nat × List (Option Nat)
  | (out, w, reqs') => (out, w, reqs ++ reqs')

/-- One iteration body of the `Http::verify` loop: compute
`till_round = min(prev.round + 1000, till.round)`, fetch and process
the batch of rounds `prev.round + 1 .. till_round` (exclusive upper
bound, as in the source's `for round in (prev.round + 1)..till_round`),
and also report the list of requests that batch issued. -/
def batchStep (g1 : List Nat → Option (List Nat))
    (bls : List Nat → Nat → List Nat → List Nat → Option Bool)
    (pk : List Nat) (S : EpOracle) (win : List Nat) (prev till : Random) :
    (Out Random × List Nat) × List (Option Nat) :=
  let tillRound := min (prev.round + 1000) till.round
  (procItems g1 bls pk (batchItems S (prev.round + 1) tillRound) win false prev,
   (List.range' (prev.round + 1) (tillRound - (prev.round + 1))).map some)

/-- `Http::verify` (`http.rs` lines 198-251): the outer
`while prev.round < till.round` loop, fueled; each iteration runs
`batchStep`, and when the guard fails the loop returns `till`.
Returns the outcome, the window, and the requests issued. -/
def verifyLoop (g1 : List Nat → Option (List Nat))
    (bls : List Nat → Nat → List Nat → List Nat → Option Bool)
    (pk : List Nat) (S : EpOracle) :
    Nat → List Nat → Random → Random → Out Random × List Nat × List (Option Nat)
  | 0, win, prev, till =>
    if prev.round < till.round then (.spin, win, []) else (.ok till, win, [])
  | fuel + 1, win, prev, till =>
    if prev.round < till.round then
      match batchStep g1 bls pk S win prev till with
      | ((.ok prev', win'), reqs) => addReqs reqs (verifyLoop g1 bls pk S fuel win' prev' till)
      | ((.err k, win'), reqs) => (.err k, win', reqs)
      | ((.panicked, win'), reqs) => (.panicked, win', reqs)
      | ((.spin, win'), reqs) => (.spin, win', reqs)
    else (.ok till, win, [])

/-- `Http::get` (`http.rs` lines 160-196): fetch the requested round (or
latest) with `do_get`, then decide through
`match (state.check_point.take(), round)`:
* `(Some cp, Some rq)` with `rq <= cp.round`: keep `cp`, return the
  fetched round as is;
* `(Some cp, Some _)` with `secure`: sweep-verify `cp → r`, install and
  return the sweep result;
* `(Some _, Some _)`: install and return the fetched round;
* `(Some cp, None)` with `secure`: as the verified case;
* `(Some _, None)`: as the insecure case;
* `(None, _)`: install and return the fetched round.
Returns the outcome, the window, and the requests issued. -/
def get (g1 : List Nat → Option (List Nat))
    (bls : List Nat → Nat → List Nat → List Nat → Option Bool)
    (S : EpOracle) (fuel : Nat) (win : List Nat) (st : State) (round : Option Nat) :
    Out (State × Random) × List Nat × List (Option Nat) :=
  match do_get S win round with
  | (.error k, win) => (.err k, win, [round])
  | (.ok r, win) =>
    match st.check_point, round with
    | some cp, some rq =>
      if rq ≤ cp.round then
        (.ok ({ st with check_point := some cp }, r), win, [round])
      else if st.secure then
        match verifyLoop g1 bls st.info.public_key S fuel win cp r with
        | (.ok r', win', reqs) =>
          (.ok ({ st with check_point := some r' }, r'), win', round :: reqs)
        | (.err k, win', reqs) => (.err k, win', round :: reqs)
        | (.panicked, win', reqs) => (.panicked, win', round :: reqs)
        | (.spin, win', reqs) => (.spin, win', round :: reqs)
      else (.ok ({ st with check_point := some r }, r), win, [round])
    | some cp, none =>
      if st.secure then
        match verifyLoop g1 bls st.info.public_key S fuel win cp r with
        | (.ok r', win', reqs) =>
          (.ok ({ st with check_point := some r' }, r'), win', round :: reqs)
        | (.err k, win', reqs) => (.err k, win', round :: reqs)
        | (.panicked, win', reqs) => (.panicked, win', round :: reqs)
        | (.spin, win', reqs) => (.spin, win', round :: reqs)
      else (.ok ({ st with check_point := some r }, r), win, [round])
    | none, _ => (.ok ({ st with check_point := some r }, r), win, [round])

/-- `Http::boot_phase1` (`http.rs` lines 94-126): fetch `/info`; if a
root of trust is supplied and differs from `info.hash`, fail
`NotSecure`; then fetch the latest round with `do_get`. -/
def boot_phase1 (S : EpOracle) (win : List Nat) (rot : Option (List Nat)) :
    Except ErrKind (Info × Random) × List Nat :=
  match S.info with
  | .fail => (.error .IOError, add_elapsed win (min (to_elapsed win * 2) MAX_ELAPSED))
  | .ok elapsed val =>
    let win := add_elapsed win elapsed
    match val with
    | .error k => (.error k, win)
    | .ok info =>
      if (match rot with | some r => decide (r ≠ info.hash) | none => false) then
        (.error .NotSecure, win)
      else
        match do_get S win none with
        | (.error k, win) => (.error k, win)
        | (.ok latest, win) => (.ok (info, latest), win)

/-- `Http::boot_phase2` (`http.rs` lines 128-158): establish the
checkpoint from `(determinism, check_point)`:
* `(true, None)`: fetch round 1 and sweep-verify `1 → latest`;
* `(true, Some cp)`: sweep-verify `cp → latest`;
* `(false, _)` with `secure`: trust `latest`;
* `(false, _)`: no checkpoint. -/
def boot_phase2 (g1 : List Nat → Option (List Nat))
    (bls : List Nat → Nat → List Nat → List Nat → Option Bool)
    (S : EpOracle) (fuel : Nat) (win : List Nat) (st : State) (latest : Random) :
    Out State × List Nat :=
  match st.determinism, st.check_point with
  | true, none =>
    match do_get S win (some 1) with
    | (.error k, win) => (.err k, win)
    | (.ok r, win) =>
      match verifyLoop g1 bls st.info.public_key S fuel win r latest with
      | (.ok cp, win, _) => (.ok { st with check_point := some cp }, win)
      | (.err k, win, _) => (.err k, win)
      | (.panicked, win, _) => (.panicked, win)
      | (.spin, win, _) => (.spin, win)
  | true, some cp =>
    match verifyLoop g1 bls st.info.public_key S fuel win cp latest with
    | (.ok cp', win, _) => (.ok { st with check_point := some cp' }, win)
    | (.err k, win, _) => (.err k, win)
    | (.panicked, win, _) => (.panicked, win)
    | (.spin, win, _) => (.spin, win)
  | false, _ =>
    (.ok { st with check_point := if st.secure then some latest else none }, win)

/-! ## The endpoint pool (`endpoints.rs`) -/

/-- One pooled endpoint: its oracle and its latency window (the
`Http::DrandApi(Vec<Duration>)` payload). -/
structure Ep where
  S : EpOracle
  win : List Nat

/-- `Inner::avg_elapsed` = `Http::to_elapsed` on the endpoint's
window. -/
def avg_elapsed (e : Ep) : Nat :=
  to_elapsed e.win

/-- `Info::default()` of `endpoints.rs`. -/
def defaultInfo : Info :=
  { public_key := [], period := 0, genesis_time := 0, hash := [], group_hash := [] }

/-- The probe state built inside the boot tail closures
(`endpoints.rs` lines 55-60): `State::default()` with `check_point`
cleared and `secure` off. -/
def probeState : State :=
  { info := defaultInfo, check_point := none, determinism := false,
    secure := false, max_conns := 0 }

/-- `Endpoints::boot_validate_info` (`endpoints.rs` lines 120-128):
`public_key` and `hash` must match exactly; a mismatch is an `Invalid`
error. -/
def boot_validate_info (this other : Info) : Except ErrKind Unit :=
  if this.public_key ≠ other.public_key then .error .Invalid
  else if this.hash ≠ other.hash then .error .Invalid
  else .ok ()

/-- `Endpoints::boot_validate_latest` (`endpoints.rs` lines 130-142):
all four round fields must match exactly; a mismatch is an `Invalid`
error. -/
def boot_validate_latest (this other : Random) : Except ErrKind Unit :=
  if this.round ≠ other.round then .error .Invalid
  else if this.randomness ≠ other.randomness then .error .Invalid
  else if this.signature ≠ other.signature then .error .Invalid
  else if this.previous_signature ≠ other.previous_signature then .error .Invalid
  else .ok ()

/-- The closure spawned for each non-primary endpoint during `boot`
(`endpoints.rs` lines 50-64): phase-1 boot it, validate its info
against the canonical one, fetch the round numbered `latest1.round`
through a fresh probe state, and validate that against the canonical
latest. -/
def bootTail (g1 : List Nat → Option (List Nat))
    (bls : List Nat → Nat → List Nat → List Nat → Option Bool)
    (fuel : Nat) (info1 : Info) (latest1 : Random) (e : Ep) : Out Ep :=
  match boot_phase1 e.S e.win none with
  | (.error k, _) => .err k
  | (.ok (info2, _), win) =>
    match boot_validate_info info1 info2 with
    | .error k => .err k
    | .ok _ =>
      match get g1 bls e.S fuel win probeState (some latest1.round) with
      | (.ok (_, r), win', _) =>
        match boot_validate_latest latest1 r with
        | .error k => .err k
        | .ok _ => .ok { e with win := win' }
      | (.err k, _, _) => .err k
      | (.panicked, _, _) => .panicked
      | (.spin, _, _) => .spin

/-- `Endpoints::boot` (`endpoints.rs` lines 40-80).  An empty pool is
`Invalid`; a singleton pool phase-1 boots endpoint 0; a larger pool
phase-1 boots endpoint 0 and builds one `bootTail` future per remaining
endpoint — but the source's line 67 is
`futures::future::join_all(tail).await;` whose result list is dropped,
which the binding `_tails` mirrors.  Afterwards `info` is installed in
the shared state and `boot_phase2` runs on endpoint 0. -/
def boot (g1 : List Nat → Option (List Nat))
    (bls : List Nat → Nat → List Nat → List Nat → Option Bool)
    (fuel : Nat) (pool : List Ep) (st : State) : Out State :=
  match pool with
  | [] => .err .Invalid
  | [e0] =>
    match boot_phase1 e0.S e0.win none with
    | (.error k, _) => .err k
    | (.ok (info, latest), win0) =>
      (boot_phase2 g1 bls e0.S fuel win0 { st with info := info } latest).1
  | e0 :: rest =>
    match boot_phase1 e0.S e0.win none with
    | (.error k, _) => .err k
    | (.ok (info, latest), win0) =>
      let _tails : List (Out Ep) := rest.map (bootTail g1 bls fuel info latest)
      (boot_phase2 g1 bls e0.S fuel win0 { st with info := info } latest).1

/-- `Endpoints::get_endpoint_pair` (`endpoints.rs` lines 144-169): keep
the endpoints whose average elapsed is strictly below `MAX_ELAPSED`,
stable-sort them by that average (`Vec::sort_by` is a stable sort, and
a stable sort under a total comparator is unique, so insertion sort
computes the same list), and return the first two (the source keeps
`(index, avg)` pairs and clones `self.endpoints[i]`; carrying the
endpoint itself through the stable sort selects the same two). -/
def get_endpoint_pair (pool : List Ep) : Option Ep × Option Ep :=
  let eligible := (pool.filter (fun e => avg_elapsed e < MAX_ELAPSED)).map
    (fun e => (e, avg_elapsed e))
  match eligible.insertionSort (fun a b => a.2 ≤ b.2) with
  | [] => (none, none)
  | [x] => (some x.1, none)
  | x :: y :: _ => (some x.1, some y.1)

/-- `Endpoints::get` (`endpoints.rs` lines 82-116): the selection loop,
fueled.  Both selected endpoints are CLONES of the pooled ones, so the
recursive iteration runs on the unchanged pool.  Two successes keep the
higher round; one success wins over a failure; two failures re-enter
the loop; a single eligible endpoint's result (or error) is returned
directly; no eligible endpoint is `Fatal`. -/
def epsGet (g1 : List Nat → Option (List Nat))
    (bls : List Nat → Nat → List Nat → List Nat → Option Bool)
    (vfuel : Nat) (pool : List Ep) (st : State) (round : Option Nat) :
    Nat → Out (State × Random)
  | 0 => .spin
  | fuel + 1 =>
    match get_endpoint_pair pool with
    | (some e1, some e2) =>
      match (get g1 bls e1.S vfuel e1.win st round).1,
            (get g1 bls e2.S vfuel e2.win st round).1 with
      | .ok (s1, r1), .ok (s2, r2) =>
        if r1.round > r2.round then .ok (s1, r1) else .ok (s2, r2)
      | .ok x, .err _ => .ok x
      | .err _, .ok x => .ok x
      | .err _, .err _ => epsGet g1 bls vfuel pool st round fuel
      | .panicked, _ => .panicked
      | _, .panicked => .panicked
      | .spin, _ => .spin
      | _, .spin => .spin
    | (some e1, none) => (get g1 bls e1.S vfuel e1.win st round).1
    | (none, _) => .err .Fatal

/-! ## Shared concrete instantiations for the claim theorems -/

/-- A 48-byte public key (all zero), the length `clone_from_slice`
expects. -/
def pk48 : List Nat := List.replicate 48 0

/-- A `g1_from_fixed` collaborator that accepts every 48-byte input. -/
def g1some : List Nat → Option (List Nat) := fun _ => some []

/-- A `drand_verify::verify` collaborator for which every signature
checks. -/
def blsTrue : List Nat → Nat → List Nat → List Nat → Option Bool := fun _ _ _ _ => some true

/-- A `drand_verify::verify` collaborator for which no signature
checks. -/
def blsFalse : List Nat → Nat → List Nat → List Nat → Option Bool := fun _ _ _ _ => some false

/-! ## Latency-window lemmas (claim C8) -/

theorem length_add_elapsed_le (es : List Nat) (x : Nat) (h : es.length ≤ 32) :
    (add_elapsed es x).length ≤ 32 := by
  by_cases h32 : MAX_ELAPSED_WINDOW ≤ es.length
  · simp only [add_elapsed, if_pos h32, List.length_append, List.length_drop,
      List.length_cons, List.length_nil]
    omega
  · simp only [add_elapsed, if_neg h32, List.length_append, List.length_cons,
      List.length_nil]
    simp only [MAX_ELAPSED_WINDOW] at h32
    omega

theorem foldl_add_elapsed_eq (xs : List Nat) : ∀ acc : List Nat, acc.length ≤ 32 →
    xs.foldl add_elapsed acc = (acc ++ xs).drop (acc.length + xs.length - 32) := by
  induction xs with
  | nil =>
    intro acc h
    simp [Nat.sub_eq_zero_of_le h]
  | cons x xs ih =>
    intro acc h
    show List.foldl add_elapsed (add_elapsed acc x) xs = _
    rw [ih (add_elapsed acc x) (length_add_elapsed_le _ _ h)]
    by_cases h32 : MAX_ELAPSED_WINDOW ≤ acc.length
    · have hlen : acc.length = 32 := by
        simp only [MAX_ELAPSED_WINDOW] at h32; omega
      have hne : acc.length ≠ 0 := by omega
      simp only [add_elapsed, if_pos h32]
      have hd : (acc.drop 1 ++ [x]) ++ xs = (acc ++ x :: xs).drop 1 := by
        rw [List.drop_append_of_le_length (by omega)]
        simp
      rw [hd, List.drop_drop]
      congr 1
      simp only [List.length_append, List.length_drop, List.length_cons,
        List.length_nil]
      omega
    · simp only [add_elapsed, if_neg h32]
      simp only [MAX_ELAPSED_WINDOW] at h32
      rw [List.append_assoc]
      congr 1
      simp only [List.length_append, List.length_cons, List.length_nil]
      omega

theorem durDiv_eq (d r : Nat) (hr : 0 < r) : durDiv d r = d / r := by
  have key : ∀ a c : Nat, a / r + (c + a % r) / r = (c + a) / r := by
    intro a c
    have h1 : c + a = (c + a % r) + (a / r) * r := by
      conv_lhs => rw [← Nat.div_add_mod a r]
      ring
    rw [h1, Nat.add_mul_div_right _ _ hr]
    omega
  show (d / NANOS_PER_SEC / r) * NANOS_PER_SEC +
      (d % NANOS_PER_SEC / r +
        ((d / NANOS_PER_SEC % r) * NANOS_PER_SEC + d % NANOS_PER_SEC % r) / r) = d / r
  rw [key (d % NANOS_PER_SEC) ((d / NANOS_PER_SEC % r) * NANOS_PER_SEC)]
  have h2 : d = ((d / NANOS_PER_SEC % r) * NANOS_PER_SEC + d % NANOS_PER_SEC) +
      (d / NANOS_PER_SEC / r) * NANOS_PER_SEC * r := by
    have e2 : r * (d / NANOS_PER_SEC / r) + d / NANOS_PER_SEC % r = d / NANOS_PER_SEC :=
      Nat.div_add_mod (d / NANOS_PER_SEC) r
    calc d = NANOS_PER_SEC * (d / NANOS_PER_SEC) + d % NANOS_PER_SEC :=
        (Nat.div_add_mod d NANOS_PER_SEC).symm
    _ = NANOS_PER_SEC * (r * (d / NANOS_PER_SEC / r) + d / NANOS_PER_SEC % r) +
        d % NANOS_PER_SEC := by rw [e2]
    _ = ((d / NANOS_PER_SEC % r) * NANOS_PER_SEC + d % NANOS_PER_SEC) +
        (d / NANOS_PER_SEC / r) * NANOS_PER_SEC * r := by ring
  conv_rhs => rw [h2]
  rw [Nat.add_mul_div_right _ _ hr]
  omega

theorem to_elapsed_le (es : List Nat) (h : es ≠ [])
    (hall : ∀ x ∈ es, x ≤ MAX_ELAPSED) : to_elapsed es ≤ MAX_ELAPSED := by
  rcases es with _ | ⟨a, t⟩
  · exact absurd rfl h
  · have hlen : 0 < (a :: t).length := by simp
    rw [show to_elapsed (a :: t) = durDiv (a :: t).sum (a :: t).length from rfl]
    rw [durDiv_eq _ _ hlen]
    have hsum : (a :: t).sum ≤ (a :: t).length * MAX_ELAPSED := by
      have := List.sum_le_card_nsmul (a :: t) MAX_ELAPSED hall
      simpa [smul_eq_mul] using this
    calc (a :: t).sum / (a :: t).length
        ≤ ((a :: t).length * MAX_ELAPSED) / (a :: t).length :=
          Nat.div_le_div_right hsum
    _ = MAX_ELAPSED := Nat.mul_div_cancel_left _ hlen

/-- Claim C8, counterexample: the claim asserts that `to_elapsed` never
exceeds `MAX_ELAPSED` "including for the empty window", but the empty
window yields the sentinel `Duration::from_secs(u64::MAX)`, which is
far above the 24-hour `MAX_ELAPSED`. -/
theorem c8_counterexample : ¬ to_elapsed [] ≤ MAX_ELAPSED := by decide

/-- Claim C8 (amended): across any sequence of `add_elapsed` calls
starting from the fresh (empty) window, the window length never exceeds
`MAX_ELAPSED_WINDOW = 32` and the content is exactly the most recent 32
samples in order (FIFO eviction of the oldest); and the derived average
`to_elapsed` is at most `MAX_ELAPSED` for any NON-empty window all of
whose samples are at most `MAX_ELAPSED` (the empty window instead
yields the sentinel `u64::MAX` seconds, and a successful request slower
than 24 hours is pushed unclamped, so the bound does not hold
unconditionally). -/
theorem c8_amended :
    (∀ xs : List Nat, (xs.foldl add_elapsed []).length ≤ MAX_ELAPSED_WINDOW) ∧
    (∀ xs : List Nat, xs.foldl add_elapsed [] = xs.drop (xs.length - MAX_ELAPSED_WINDOW)) ∧
    (∀ es : List Nat, es ≠ [] → (∀ x ∈ es, x ≤ MAX_ELAPSED) →
      to_elapsed es ≤ MAX_ELAPSED) := by
  have hfold : ∀ xs : List Nat,
      xs.foldl add_elapsed [] = xs.drop (xs.length - MAX_ELAPSED_WINDOW) := by
    intro xs
    have := foldl_add_elapsed_eq xs [] (by simp)
    simpa [MAX_ELAPSED_WINDOW] using this
  refine ⟨fun xs => ?_, hfold, to_elapsed_le⟩
  rw [hfold xs]
  simp only [List.length_drop, MAX_ELAPSED_WINDOW]
  omega

/-- Claim C8, witness for the amended statement at concrete inputs. -/
theorem c8_witness :
    ([5, 7] : List Nat).foldl add_elapsed [] = [5, 7] ∧
      to_elapsed [5] ≤ MAX_ELAPSED := by
  constructor
  · rw [c8_amended.2.1 [5, 7]]; rfl
  · exact c8_amended.2.2 [5] (by simp) (by intro x hx; simp at hx; subst hx; decide)

/-! ## JSON-conversion theorems (claim C6) -/

/-- A round payload whose three byte fields are the single byte `00`
(hex string `"00"`), far from the specified 32/96/96-byte lengths. -/
def shortJson : RandomJson := ⟨1, "00", "00", "00"⟩

/-- The `Random` that `shortJson` converts to. -/
def shortRandom : Random := ⟨1, [0], [0], [0]⟩

/-- Claim C6, counterexample: the claim asserts the conversions apply
length checks (48/96/96/32) and fail `Invalid` on mismatch, but
`TryFrom` only hex-decodes: a `RandomJson` whose three byte fields are
the 1-byte string `"00"` converts successfully. -/
theorem c6_counterexample :
    randomTryFrom shortJson = .ok shortRandom ∧
      shortRandom.signature.length ≠ 96 := by
  exact ⟨rfl, by decide⟩

/-- Claim C6 (amended): the conversions from `InfoJson` and `RandomJson`
apply NO length checks.  The `Random` conversion succeeds exactly when
its three byte fields are valid hex — regardless of the decoded
lengths — carrying `round` over unchanged, and every failure is of kind
`HexParse`.  The `Info` conversion succeeds exactly when its three byte
fields are valid hex AND `genesis_time < 2 ^ 63`, again carrying the
numeric fields over unchanged with every error of kind `HexParse`; but
when `public_key` is valid hex and `genesis_time ≥ 2 ^ 63` it PANICS
(the `SystemTime + Duration` overflow at `http.rs` line 303) instead of
returning any error.  No `Invalid` structural check exists anywhere. -/
theorem c6_amended :
    (∀ (j : RandomJson) (r : Random),
      randomTryFrom j = .ok r ↔
        hexDecode j.previous_signature = some r.previous_signature ∧
        hexDecode j.randomness = some r.randomness ∧
        hexDecode j.signature = some r.signature ∧
        r.round = j.round) ∧
    (∀ (j : RandomJson) (k : ErrKind), randomTryFrom j = .error k → k = .HexParse) ∧
    (∀ (i : InfoJson) (v : Info),
      infoTryFrom i = .ok v ↔
        hexDecode i.public_key = some v.public_key ∧
        i.genesis_time < 2 ^ 63 ∧
        hexDecode i.hash = some v.hash ∧
        hexDecode i.group_hash = some v.group_hash ∧
        v.period = i.period ∧ v.genesis_time = i.genesis_time) ∧
    (∀ (i : InfoJson) (k : ErrKind), infoTryFrom i = .err k → k = .HexParse) ∧
    (∀ i : InfoJson,
      infoTryFrom i = .panicked ↔
        (hexDecode i.public_key).isSome = true ∧ 2 ^ 63 ≤ i.genesis_time) := by
  refine ⟨fun j r => ?_, fun j k => ?_, fun i v => ?_, fun i k => ?_, fun i => ?_⟩
  · rcases r with ⟨rr, rn, rs, rp⟩
    unfold randomTryFrom
    rcases hp : hexDecode j.previous_signature with _ | psign <;>
      rcases hr : hexDecode j.randomness with _ | rnd <;>
      rcases hs : hexDecode j.signature with _ | sig <;>
      simp [Random.mk.injEq] <;> aesop
  · unfold randomTryFrom
    rcases hp : hexDecode j.previous_signature with _ | psign <;>
      rcases hr : hexDecode j.randomness with _ | rnd <;>
      rcases hs : hexDecode j.signature with _ | sig <;>
      simp <;> (intro h; exact h.symm)
  · rcases v with ⟨pk2, per, gen, hsh2, gh2⟩
    unfold infoTryFrom
    rcases hp : hexDecode i.public_key with _ | pk
    · simp [hp]
    · dsimp only
      by_cases hbig : 2 ^ 63 ≤ i.genesis_time
      · rw [if_pos hbig]
        constructor
        · intro h
          simp at h
        · rintro ⟨-, hlt, -⟩
          omega
      · rw [if_neg hbig]
        have hlt : i.genesis_time < 2 ^ 63 := by omega
        rcases hh : hexDecode i.hash with _ | hsh <;>
          rcases hg : hexDecode i.group_hash with _ | gh <;>
          simp [hp, hlt, Info.mk.injEq] <;> aesop
  · unfold infoTryFrom
    rcases hp : hexDecode i.public_key with _ | pk
    · simp
      intro h
      exact h.symm
    · dsimp only
      by_cases hbig : 2 ^ 63 ≤ i.genesis_time
      · rw [if_pos hbig]
        simp
      · rw [if_neg hbig]
        rcases hh : hexDecode i.hash with _ | hsh <;>
          rcases hg : hexDecode i.group_hash with _ | gh <;>
          simp <;> (intro h; exact h.symm)
  · unfold infoTryFrom
    rcases hp : hexDecode i.public_key with _ | pk
    · simp [hp]
    · dsimp only
      by_cases hbig : 2 ^ 63 ≤ i.genesis_time
      · rw [if_pos hbig]
        simp [hp, hbig]
        omega
      · rw [if_neg hbig]
        rcases hh : hexDecode i.hash with _ | hsh <;>
          rcases hg : hexDecode i.group_hash with _ | gh <;>
          simp [hp, hbig] <;> omega

/-- A round payload with mixed-case hex and unspecified lengths. -/
def mixedJson : RandomJson := ⟨2, "ff", "ABCD", "00"⟩

/-- The `Random` that `mixedJson` converts to. -/
def mixedRandom : Random := ⟨2, [255], [171, 205], [0]⟩

/-- An info payload with 1-byte fields and a representable
`genesis_time`. -/
def smallInfoJson : InfoJson := ⟨"aa", 30, 100, "bb", "cc"⟩

/-- The `Info` that `smallInfoJson` converts to. -/
def smallInfo : Info := ⟨[170], 30, 100, [187], [204]⟩

/-- Claim C6, witness for the amended statement: concrete conversions
on both payload kinds obtained through the characterizations. -/
theorem c6_witness :
    randomTryFrom mixedJson = .ok mixedRandom ∧
      infoTryFrom smallInfoJson = .ok smallInfo :=
  ⟨(c6_amended.1 mixedJson mixedRandom).mpr ⟨rfl, rfl, rfl, rfl⟩,
   (c6_amended.2.2.1 smallInfoJson smallInfo).mpr
     ⟨rfl, by decide, rfl, rfl, rfl, rfl⟩⟩

/-! ## `verify_chain` theorems (claim C5) -/

/-- Claim C5, counterexample: the claim asserts `verify_chain` is total
and returns a `NotSecure` error when the public key does not have
length 48, but on such an input (with a matching chain link, here the
empty key) the `clone_from_slice` into `[u8; 48]` panics instead. -/
theorem c5_counterexample :
    verify_chain (fun _ => none) (fun _ _ _ _ => none) [] [1]
      { round := 1, randomness := [], signature := [], previous_signature := [1] }
      = .panicked := by
  rfl

/-- Claim C5 (amended): `verify_chain` returns `NotSecure` whenever the
supplied previous signature differs from `curr.previous_signature`
(this check runs first, for any key), and whenever the key has length
exactly 48 it never panics and every failure it returns is of kind
`NotSecure`; but for a key of any other length (with a matching chain
link) it panics in the fixed-size slice copy rather than returning an
error. -/
theorem c5_amended (g1 : List Nat → Option (List Nat))
    (bls : List Nat → Nat → List Nat → List Nat → Option Bool)
    (pk prev : List Nat) (curr : Random) :
    (prev ≠ curr.previous_signature →
      verify_chain g1 bls pk prev curr = .err .NotSecure) ∧
    (pk.length = 48 →
      verify_chain g1 bls pk prev curr ≠ .panicked ∧
      ∀ k, verify_chain g1 bls pk prev curr = .err k → k = .NotSecure) := by
  constructor
  · intro hne
    simp [verify_chain, hne]
  · intro h48
    unfold verify_chain
    by_cases hne : prev ≠ curr.previous_signature
    · simp [hne]
    · rw [if_neg hne, if_pos h48]
      rcases hg : g1 pk with _ | pt
      · simp
      · dsimp only
        rcases hb : bls pt (curr.round % 2 ^ 64) prev curr.signature with _ | b <;> simp

/-- Claim C5, witness for the amended statement at concrete inputs. -/
theorem c5_witness :
    verify_chain g1some blsTrue pk48 [9]
      { round := 1, randomness := [], signature := [], previous_signature := [1] }
      = .err .NotSecure ∧
    verify_chain g1some blsTrue pk48 [1]
      { round := 1, randomness := [], signature := [], previous_signature := [1] }
      ≠ .panicked := by
  constructor
  · exact (c5_amended g1some blsTrue pk48 [9] _).1 (by decide)
  · exact ((c5_amended g1some blsTrue pk48 [1] _).2 (by decide)).1

/-! ## `to_digest` theorem (claim C10) -/

/-- Round 1 with an empty previous signature, the simplest digest
input. -/
def round1Bare : Random := ⟨1, [], [], []⟩

/-- Claim C10: the claim (and the drand protocol, which the repo's own
`verify_chain` follows by truncating `curr.round as u64` before calling
`drand_verify::verify`) says the digest hashes
`previous_signature ‖ be64(round)`; the code instead appends
`u128::to_be_bytes`, i.e. 16 bytes, so the produced digest differs from
the specified one already at round 1 with an empty previous
signature. -/
theorem c10_digest_uses_be128 :
    to_digest round1Bare = sha256 (beBytes 16 1) ∧
      to_digest round1Bare ≠ to_digest_spec round1Bare := by
  exact ⟨rfl, by decide⟩

/-! ## Concrete states and oracles for the `Http::get` / `Http::verify`
claims -/

/-- A group info whose public key is the 48-byte `pk48`. -/
def infoA : Info := ⟨pk48, 30, 0, [7], [8]⟩

/-- A checkpoint at round 5. -/
def cp5 : Random := ⟨5, [5], [55], [44]⟩

/-- A round the server serves, numbered 3 (below the checkpoint). -/
def bad3 : Random := ⟨3, [3], [33], [22]⟩

/-- A round the server serves, numbered 7 (above the checkpoint). -/
def r7 : Random := ⟨7, [7], [77], [66]⟩

/-- An endpoint that answers every round request with `bad3`. -/
def SBad : EpOracle := ⟨.fail, fun _ => .ok 1 (.ok bad3)⟩

/-- An endpoint that answers every round request with `r7`. -/
def S7 : EpOracle := ⟨.fail, fun _ => .ok 1 (.ok r7)⟩

/-- A booted secure-mode state checkpointed at `cp5`. -/
def stSecure : State := ⟨infoA, some cp5, false, true, 4⟩

/-- A booted insecure-mode state checkpointed at `cp5`. -/
def stInsecure : State := ⟨infoA, some cp5, false, false, 4⟩

/-! ## Claim C2: secure `get` and verification -/

/-- Claim C2: the claim says every successful secure `get` returns a
BLS-verified round.  With `secure = true`, checkpoint `cp5` (round 5)
and an explicit request for round 3, `get` takes the
`round <= check_point.round` branch of `http.rs` line 172: it returns
the freshly fetched `bad3` as is — even though, under the given BLS
collaborator, `verify_chain` on that very round evaluates to
`Ok(false)`.  The returned round was never passed through
`verify_chain` (and `Http::verify` never checks the final round of a
sweep either, its batch upper bound being exclusive). -/
theorem c2_secure_get_unverified :
    get g1some blsFalse SBad 0 [] stSecure (some 3)
      = (.ok (stSecure, bad3), [1], [some 3]) ∧
    verify_chain g1some blsFalse infoA.public_key bad3.previous_signature bad3
      = .ok false := by
  exact ⟨rfl, rfl⟩

/-! ## Claim C3: termination of `Http::verify` -/

/-- An honest server: the response to `/public/{n}` is a round numbered
`n` whose previous signature is the signature of round `n - 1`
(signatures are the one-byte string `[n]`); `/public/latest` answers
round 9. -/
def honestRound (n : Nat) : Random := ⟨n, [n], [n], [n - 1]⟩

/-- The oracle of the honest server. -/
def SHonest : EpOracle := ⟨.fail, fun q => .ok 1 (.ok (honestRound (q.getD 9)))⟩

/-- Claim C3: the claim says that with every fetch parsing and every
link valid, `Http::verify(state, from, till)` terminates and returns
`till`.  It does not: the batch `for round in (prev.round + 1)..till_round`
EXCLUDES `till_round`, so `prev` can never reach `till.round`; once
`prev.round + 1 = till.round` every iteration processes an empty batch
and leaves `prev` unchanged, so the `while prev.round < till.round`
guard holds forever.  Concretely, from round 1 to round 2, against the
honest server with an always-accepting BLS collaborator, the loop is
still running after every fuel bound. -/
theorem c3_verify_spins :
    ∀ (fuel : Nat) (win : List Nat),
      verifyLoop g1some blsTrue pk48 SHonest fuel win (honestRound 1) (honestRound 2)
        = (.spin, win, []) := by
  intro fuel
  induction fuel with
  | zero => intro win; rfl
  | succ n ih =>
    intro win
    have hstep :
        verifyLoop g1some blsTrue pk48 SHonest (n + 1) win (honestRound 1) (honestRound 2)
          = addReqs [] (verifyLoop g1some blsTrue pk48 SHonest n win
              (honestRound 1) (honestRound 2)) := rfl
    rw [hstep, ih win]
    rfl

/-! ## Claim C4: checkpoint monotonicity -/

/-- The request-list component of `addReqs` does not change the
outcome component. -/
theorem addReqs_fst (reqs : List (Option Nat))
    (t : Out Random × List Nat × List (Option Nat)) :
    (addReqs reqs t).1 = t.1 := by
  rcases t with ⟨o, w, q⟩
  rfl

/-- Whenever `Http::verify` returns successfully, its value is exactly
the `till` argument (`Ok(till)` is the only successful exit). -/
theorem verifyLoop_fst_ok (g1 : List Nat → Option (List Nat))
    (bls : List Nat → Nat → List Nat → List Nat → Option Bool)
    (pk : List Nat) (S : EpOracle) (till : Random) :
    ∀ (fuel : Nat) (win : List Nat) (prev : Random) (r' : Random),
      (verifyLoop g1 bls pk S fuel win prev till).1 = .ok r' → r' = till := by
  intro fuel
  induction fuel with
  | zero =>
    intro win prev r' h
    unfold verifyLoop at h
    split at h
    · simp at h
    · simp only [Out.ok.injEq] at h
      exact h.symm
  | succ n ih =>
    intro win prev r' h
    unfold verifyLoop at h
    split at h
    · rcases hbs : batchStep g1 bls pk S win prev till with ⟨⟨out1, win1⟩, reqs1⟩
      rw [hbs] at h
      rcases out1 with p' | k | _ | _ <;> dsimp only at h
      · rw [addReqs_fst] at h
        exact ih _ _ _ h
      · simp at h
      · simp at h
      · simp at h
    · simp only [Out.ok.injEq] at h
      exact h.symm

/-- A state made insecure after the fetched round `bad3` replaced the
checkpoint. -/
def stAfterBad3 : State := { stInsecure with check_point := some bad3 }

/-- Claim C4, counterexample: the claim says the checkpoint round never
decreases "for every round value the remote server may return
(including a latest round numbered below the current checkpoint)" —
but a `get` for the latest round against a server whose latest is
round 3 moves the checkpoint from round 5 down to round 3. -/
theorem c4_counterexample :
    (get g1some blsFalse SBad 0 [] stInsecure none).1 = .ok (stAfterBad3, bad3) ∧
      bad3.round < cp5.round := by
  exact ⟨rfl, by decide⟩

/-- Claim C4 (amended): across any `Http::get`, the checkpoint round
does not decrease PROVIDED every round the server successfully returns
is numbered at least the current checkpoint round (e.g. an honest,
non-lagging server).  Without that hypothesis the branches that install
the fetched round (`http.rs` lines 177-191) can move the checkpoint
backwards. -/
theorem c4_amended (g1 : List Nat → Option (List Nat))
    (bls : List Nat → Nat → List Nat → List Nat → Option Bool)
    (S : EpOracle) (fuel : Nat) (win : List Nat) (st : State) (round : Option Nat)
    (cp : Random) (st' : State) (r : Random) (win' : List Nat)
    (reqs : List (Option Nat))
    (hcp : st.check_point = some cp)
    (hS : ∀ q e v, S.round q = .ok e (.ok v) → cp.round ≤ v.round)
    (h : get g1 bls S fuel win st round = (.ok (st', r), win', reqs)) :
    ∃ cp', st'.check_point = some cp' ∧ cp.round ≤ cp'.round := by
  unfold get do_get at h
  rcases hdo : S.round round with _ | ⟨e, val⟩ <;> rw [hdo] at h
  · simp at h
  · rcases val with k | v
    · simp at h
    · have hv : cp.round ≤ v.round := hS round e v hdo
      rw [hcp] at h
      rcases round with _ | rq
      · dsimp only at h
        by_cases hsec : st.secure = true
        · rw [if_pos hsec] at h
          rcases hVL : verifyLoop g1 bls st.info.public_key S fuel
              (add_elapsed win e) cp v with ⟨out, w2, q2⟩
          rw [hVL] at h
          rcases out with r' | k | _ | _ <;> simp at h
          have hr' : r' = v := by
            apply verifyLoop_fst_ok g1 bls st.info.public_key S v fuel
              (add_elapsed win e) cp r'
            rw [hVL]
          obtain ⟨⟨hst, -⟩, -, -⟩ := h
          refine ⟨r', by rw [← hst], ?_⟩
          rw [hr']
          exact hv
        · rw [if_neg hsec] at h
          simp at h
          obtain ⟨⟨hst, -⟩, -, -⟩ := h
          exact ⟨v, by rw [← hst], hv⟩
      · dsimp only at h
        by_cases hle : rq ≤ cp.round
        · rw [if_pos hle] at h
          simp at h
          obtain ⟨⟨hst, -⟩, -, -⟩ := h
          exact ⟨cp, by rw [← hst], le_refl _⟩
        · rw [if_neg hle] at h
          by_cases hsec : st.secure = true
          · rw [if_pos hsec] at h
            rcases hVL : verifyLoop g1 bls st.info.public_key S fuel
                (add_elapsed win e) cp v with ⟨out, w2, q2⟩
            rw [hVL] at h
            rcases out with r' | k | _ | _ <;> simp at h
            have hr' : r' = v := by
              apply verifyLoop_fst_ok g1 bls st.info.public_key S v fuel
                (add_elapsed win e) cp r'
              rw [hVL]
            obtain ⟨⟨hst, -⟩, -, -⟩ := h
            refine ⟨r', by rw [← hst], ?_⟩
            rw [hr']
            exact hv
          · rw [if_neg hsec] at h
            simp at h
            obtain ⟨⟨hst, -⟩, -, -⟩ := h
            exact ⟨v, by rw [← hst], hv⟩

/-- The state after a `get` against `S7` installed round 7. -/
def stAfter7 : State := { stInsecure with check_point := some r7 }

/-- Claim C4, witness for the amended statement: against a server whose
responses are all round 7, a `get` from checkpoint round 5 keeps the
checkpoint round at least 5. -/
theorem c4_witness : ∃ cp', stAfter7.check_point = some cp' ∧ cp5.round ≤ cp'.round := by
  apply c4_amended g1some blsFalse S7 0 [] stInsecure none cp5 stAfter7 r7 [1] [none] rfl
  · intro q e v hv
    simp only [S7, Resp.ok.injEq, Except.ok.injEq] at hv
    rw [← hv.2]
    decide
  · rfl

/-! ## Claim C9: requests at or below the checkpoint -/

/-- Claim C9, counterexample: the claim says a request for a round
`r ≤ check_point.round` is served from the checkpoint without a network
fetch of that round's value.  In fact `Http::get` unconditionally calls
`do_get` first (`http.rs` line 168, confirmed by the TODO at line 173:
"with cache we can optimize this call"): the request list of the call
is exactly `[some 3]` — the fetch happened — and the value handed back
is the server's response `bad3`, not the checkpoint `cp5`.  Only the
claim's last part (the checkpoint is left unchanged) holds. -/
theorem c9_counterexample :
    get g1some blsFalse SBad 0 [] stSecure (some 3)
      = (.ok (stSecure, bad3), [1], [some 3]) ∧ bad3 ≠ cp5 := by
  exact ⟨rfl, by decide⟩

/-- Claim C9 (amended): for a request `rq ≤ check_point.round` whose
fetch succeeds with value `v`, `Http::get` fetches round `rq` over the
network (the request list is `[some rq]`, the elapsed time is pushed),
returns the fetched `v` unverified, and leaves the checkpoint
unchanged. -/
theorem c9_amended (g1 : List Nat → Option (List Nat))
    (bls : List Nat → Nat → List Nat → List Nat → Option Bool)
    (S : EpOracle) (fuel : Nat) (win : List Nat) (st : State) (cp : Random)
    (rq e : Nat) (v : Random)
    (hcp : st.check_point = some cp) (hle : rq ≤ cp.round)
    (hS : S.round (some rq) = .ok e (.ok v)) :
    get g1 bls S fuel win st (some rq)
      = (.ok ({ st with check_point := some cp }, v), add_elapsed win e, [some rq]) := by
  unfold get do_get
  rw [hS, hcp]
  simp [hle]

/-- Claim C9, witness for the amended statement at concrete inputs. -/
theorem c9_witness :
    get g1some blsFalse SBad 0 [] stSecure (some 4)
      = (.ok ({ stSecure with check_point := some cp5 }, bad3),
          add_elapsed [] 1, [some 4]) :=
  c9_amended g1some blsFalse SBad 0 [] stSecure cp5 4 1 bad3 rfl (by decide) rfl

/-! ## Claim C1: boot cross-validation -/

/-- A second endpoint's group info whose `public_key` differs from
`infoA`'s. -/
def infoB : Info := ⟨[9], 30, 0, [7], [8]⟩

/-- The latest round reported by endpoint 0 at boot. -/
def latestA : Random := ⟨9, [9], [90], [89]⟩

/-- Endpoint 0's oracle: serves `infoA` and `latestA`. -/
def SA : EpOracle := ⟨.ok 1 (.ok infoA), fun _ => .ok 1 (.ok latestA)⟩

/-- Endpoint 1's oracle: serves the DISAGREEING `infoB` (different
`public_key`) and the same rounds. -/
def SB : EpOracle := ⟨.ok 1 (.ok infoB), fun _ => .ok 1 (.ok latestA)⟩

/-- Endpoint 0 as pooled. -/
def epA : Ep := ⟨SA, []⟩

/-- Endpoint 1 as pooled. -/
def epB : Ep := ⟨SB, []⟩

/-- The pre-boot pool state (defaults: no checkpoint, both policy axes
off). -/
def stUnbooted : State := ⟨defaultInfo, none, false, false, 4⟩

/-- The state `boot` produces from `stUnbooted` against `SA`. -/
def stBooted : State := ⟨infoA, none, false, false, 4⟩

/-- Claim C1: the claim says any disagreement of a non-primary
endpoint's info makes `boot` return an error.  It does not:
`endpoints.rs` line 67 is `futures::future::join_all(tail).await;` —
the semicolon discards the `Result`s of the validation futures, so
`boot` on a two-endpoint pool whose second endpoint reports a different
`public_key` still returns `Ok`, even though the dropped validation
future for that endpoint (modelled by `bootTail`) fails with the
`Invalid` mismatch error. -/
theorem c1_boot_ignores_validation :
    boot g1some blsFalse 0 [epA, epB] stUnbooted = .ok stBooted ∧
    infoB.public_key ≠ infoA.public_key ∧
    bootTail g1some blsFalse 0 infoA latestA epB = .err .Invalid := by
  exact ⟨rfl, by decide, rfl⟩

/-! ## Claim C7: pool `get` under persistent failure -/

/-- An endpoint whose every request fails at transport level. -/
def SFail : EpOracle := ⟨.fail, fun _ => .fail⟩

/-- A pooled always-failing endpoint with one 10 ns latency sample, so
its average is far below `MAX_ELAPSED` and it stays eligible. -/
def epF : Ep := ⟨SFail, [10]⟩

/-- Claim C7: the claim says `Endpoints::get` terminates under
persistent failure because each failure pushes a penalty onto "that
endpoint's window" until no endpoint is eligible and the call fails
`Fatal`.  It does not: `get_endpoint_pair` returns CLONES of the pooled
endpoints (`self.endpoints[i].clone()`), so the penalties are recorded
on the clones and dropped; the pool's own windows never change, the
same two endpoints stay eligible, and the `(Err, Err)` arm re-enters
the selection loop with identical state forever.  Concretely, a pool of
two eligible always-failing endpoints is still looping after every fuel
bound, and never reaches `Fatal("missing/exhausted endpoint")`. -/
theorem c7_pool_get_spins :
    ∀ fuel : Nat,
      epsGet g1some blsFalse 0 [epF, epF] stBooted none fuel = .spin := by
  intro fuel
  induction fuel with
  | zero => rfl
  | succ n ih =>
    have hstep : epsGet g1some blsFalse 0 [epF, epF] stBooted none (n + 1)
        = epsGet g1some blsFalse 0 [epF, epF] stBooted none n := rfl
    rw [hstep, ih]

end Drand
